import Mathlib

/-!
A shallow embedding of the core of the `eesh` terminal client:
the scrollback log buffer (`src/widget/logbuffer.rs`), the key-event
input recorder and command tokenizer (`src/input/mod.rs`,
`src/input/lexer.rs`), and the lock-acquisition behaviour of the
render/scroll paths (`src/tui/widget/terminal.rs`, `src/main.rs`).

Machine integers are modelled as `Nat` with explicit saturation at the
type bounds where the Rust code uses saturating arithmetic (`u16` for
scroll/limit/height fields, `usize` for lengths).  Grapheme clusters are
the unit of text: a span's content is modelled as its list of grapheme
clusters (the output of `graphemes(true)`), and display width is an
arbitrary parameter `gw : String → Nat` summed over clusters, matching
the additive behaviour of the `unicode-width` crate.  Fallible or
panicking control flow is made explicit (`Option` for the fuelled
eviction loop, a `RustOutcome` sum for panics).
-/

/-- `u16::MAX`. -/
def U16_MAX : Nat := 65535

/-- `usize::MAX` (64-bit target). -/
def USIZE_MAX : Nat := 2 ^ 64 - 1

/-- `usize → u16` conversion via `try_into().unwrap_or(u16::MAX)`. -/
def u16ofUsize (n : Nat) : Nat := min n U16_MAX

/-- `u16::saturating_add`. -/
def satAdd16 (a b : Nat) : Nat := min (a + b) U16_MAX

/-- A styled span: `ratatui::text::Span`.  `content` is the span's text,
represented by its list of grapheme clusters; `style` is opaque. -/
structure Span where
  style : Nat
  content : List String
deriving DecidableEq, Repr

/-- A styled line: `ratatui::text::Line`, a list of spans. -/
abbrev Line := List Span

/-- Width of a list of graphemes under grapheme-width function `gw`. -/
def bufWidth (gw : String → Nat) (b : List String) : Nat := (b.map gw).sum

/-- `Span::width`: displayed width of the span's content. -/
def spanWidth (gw : String → Nat) (s : Span) : Nat := bufWidth gw s.content

/-- `Line::width`: sum of the widths of the line's spans. -/
def lineWidth (gw : String → Nat) (l : Line) : Nat := (l.map (spanWidth gw)).sum

/-- The grapheme sequence of a line (concatenation of its spans' content). -/
def lineGraphemes (l : Line) : List String := (l.map Span.content).flatten

/-- One stored log line: `(DateTime<Utc>, Line, Line)`.  The timestamp is
opaque (an index into time); formatting is external `chrono`. -/
structure LogEntry where
  timestamp : Nat
  tag : Line
  content : Line
deriving DecidableEq

/-- `LogBuffer` from `src/widget/logbuffer.rs`.  The `tz` field (used only
for timestamp formatting, external to the algorithms) is omitted.
`last_frame_height` is an `AtomicU16` in the source accessed with relaxed
ordering under the buffer's single lock; it is modelled as a plain field. -/
structure LogBuffer where
  buf_limit : Nat
  scroll : Nat
  last_frame_height : Nat
  raw : List LogEntry
deriving DecidableEq

/-- `LogBuffer::count`. -/
def LogBuffer.count (st : LogBuffer) : Nat := st.raw.length

/-- `LogBuffer::clamp_scroll`:
`value.clamp(0, count.try_into().unwrap_or(u16::MAX).saturating_add(2).saturating_sub(last_frame_height))`. -/
def LogBuffer.clamp_scroll (st : LogBuffer) (value : Nat) : Nat :=
  min value (satAdd16 (u16ofUsize st.count) 2 - st.last_frame_height)

/-- `LogBuffer::set_scroll`. -/
def LogBuffer.set_scroll (st : LogBuffer) (val : Nat) : LogBuffer :=
  { st with scroll := st.clamp_scroll val }

/-- `LogBuffer::inc_scroll`: `scroll = clamp_scroll(scroll.saturating_add(1))`. -/
def LogBuffer.inc_scroll (st : LogBuffer) : LogBuffer :=
  { st with scroll := st.clamp_scroll (satAdd16 st.scroll 1) }

/-- `LogBuffer::dec_scroll`: `scroll = clamp_scroll(scroll.saturating_sub(1))`. -/
def LogBuffer.dec_scroll (st : LogBuffer) : LogBuffer :=
  { st with scroll := st.clamp_scroll (st.scroll - 1) }

/-- The eviction loop of `push_line`:
`while raw.len() >= buf_limit { raw.pop_front(); }`, with an explicit fuel
bound; `none` means the fuel ran out before the loop exited.  `pop_front`
on an empty deque is a no-op, as is `List.tail` on `[]`. -/
def evictLoop (limit : Nat) : Nat → List LogEntry → Option (List LogEntry)
  | 0, _ => none
  | fuel + 1, l => if limit ≤ l.length then evictLoop limit fuel l.tail else some l

/-- `LogBuffer::push_line`: append the entry; if `scroll != 0`, `inc_scroll`
(clamped against the post-insertion count); then run the eviction loop. -/
def LogBuffer.push_line (fuel : Nat) (st : LogBuffer) (timestamp : Nat)
    (tag content : Line) : Option LogBuffer :=
  let stMid : LogBuffer := { st with raw := st.raw ++ [⟨timestamp, tag, content⟩] }
  let stMid2 : LogBuffer := if stMid.scroll ≠ 0 then stMid.inc_scroll else stMid
  (evictLoop st.buf_limit fuel stMid2.raw).map fun raw2 => { stMid2 with raw := raw2 }

/-- Run a sequence of `push_line` calls, returning the state after each
individual push (`none` if any eviction loop fails to terminate in `fuel`). -/
def LogBuffer.pushSeq (fuel : Nat) : LogBuffer → List (Nat × Line × Line) → Option (List LogBuffer)
  | _, [] => some []
  | st, e :: es =>
    match st.push_line fuel e.1 e.2.1 e.2.2 with
    | none => none
    | some st1 => (LogBuffer.pushSeq fuel st1 es).map (st1 :: ·)

/-- `checked_div` on `usize`. -/
def checkedDiv (a b : Nat) : Option Nat := if b = 0 then none else some (a / b)

/-- `LogBuffer::line_height`:
`line.width().checked_div(max_width).unwrap_or(1).saturating_add(1)`. -/
def LogBuffer.line_height (gw : String → Nat) (line : Line) (max_width : Nat) : Nat :=
  min (((checkedDiv (lineWidth gw line) max_width).getD 1) + 1) USIZE_MAX

/-- The state of the grapheme-wrapping loop inside `LogBuffer::rows`:
`t` is the accumulated `Text` (completed lines), `acc` the current line,
`buf` the pending grapheme segment of the current span. -/
structure WrapState where
  t : List Line
  acc : Line
  buf : List String
deriving DecidableEq

/-- One step of the inner grapheme loop of `LogBuffer::rows`: if adding the
grapheme would overflow the line, flush `buf` onto `acc` and push `acc`
onto `t`; in both cases push the grapheme onto `buf`. -/
def wrapGrapheme (gw : String → Nat) (max_width : Nat) (style : Nat)
    (st : WrapState) (g : String) : WrapState :=
  if max_width < lineWidth gw st.acc + bufWidth gw st.buf + gw g then
    { t := st.t ++ [st.acc ++ [⟨style, st.buf⟩]], acc := [], buf := [g] }
  else
    { st with buf := st.buf ++ [g] }

/-- The per-span loop of `LogBuffer::rows`: start with a fresh `buf`, fold
over the span's graphemes, then flush any non-empty remainder onto `acc`. -/
def wrapSpan (gw : String → Nat) (max_width : Nat) (st : WrapState) (sp : Span) : WrapState :=
  let st1 := sp.content.foldl (wrapGrapheme gw max_width sp.style) { st with buf := [] }
  if st1.buf = [] then st1 else { st1 with acc := st1.acc ++ [⟨sp.style, st1.buf⟩], buf := [] }

/-- The body-column computation of `LogBuffer::rows` for one content line:
fold the wrapping loop over the spans, then push the final `acc`. -/
def wrapContent (gw : String → Nat) (max_width : Nat) (content : Line) : List Line :=
  let st := content.foldl (wrapSpan gw max_width) ⟨[], [], []⟩
  st.t ++ [st.acc]

/-- Result of `LogBuffer::render_ref` as far as buffer state is concerned:
the updated buffer (with the viewport height recorded), the computed
content width, and the table's scroll offset.  Drawing is external. -/
structure RenderOut where
  buffer : LogBuffer
  contentWidth : Nat
  tableOffset : Nat
deriving DecidableEq

/-- `LogBuffer::render_ref`:
`content_width = area.width.saturating_sub(14).saturating_sub(lcol_width)`;
stores `area.height` into `last_frame_height`; the table offset is
`count.saturating_sub(height.saturating_sub(2)).saturating_sub(scroll)`. -/
def LogBuffer.render_ref (st : LogBuffer) (lcol_width areaW areaH : Nat) : RenderOut :=
  { buffer := { st with last_frame_height := areaH }
    contentWidth := areaW - 14 - lcol_width
    tableOffset := st.count - (areaH - 2) - st.scroll }

/-- `crossterm::event::KeyCode`, restricted to the variants the input core
distinguishes; all remaining non-printable keys are collapsed into
`other`, tagged so distinct keys stay distinct. -/
inductive KeyCode where
  | enter
  | esc
  | backspace
  | char (c : Char)
  | other (n : Nat)
deriving DecidableEq, Repr

/-- `crossterm::event::KeyEvent`: a key code plus modifiers; only the
CONTROL modifier is ever inspected by this core. -/
structure KeyEvent where
  code : KeyCode
  ctrl : Bool
deriving DecidableEq, Repr

/-- `MotionToken` from `src/input/lexer.rs`. -/
inductive MotionToken where
  | clientCommand
  | serverCommand
  | submit
  | stringLiteral (s : String)
  | number (n : Int)
  | identifier (s : String)
  | chord (ke : KeyEvent)
deriving DecidableEq, Repr

/-- `CommandAliases`: the user-configured `HashMap<String, String>`,
modelled as an association list with distinct keys looked up with
`List.lookup`. -/
abbrev CommandAliases := List (String × String)

/-- Model of Rust `str::to_lowercase` (simple per-character folding). -/
def rustToLower (s : String) : String := String.mk (s.data.map Char.toLower)

/-- `CommandAliases::get`: lowercase the key, return the user-configured
value if present, else the hard-coded default for `leader` / `commander`,
else `none`. -/
def CommandAliases.get (tbl : CommandAliases) (key : String) : Option String :=
  let k := rustToLower key
  (List.lookup k tbl).or
    (if k = ("leader" : String) then some (",")
     else if k = ("commander" : String) then some ("/")
     else none)

/-- Result of one `MotionTokenizer::next` call: iterator exhausted, a token
plus the remaining input, or a panic (the `todo!()` arms). -/
inductive NextRes where
  | done
  | tok (t : MotionToken) (rest : List KeyEvent)
  | panicked (msg : String)
deriving DecidableEq, Repr

/-- `MotionTokenizer::next` from `src/input/lexer.rs`.  `Enter` yields
`Submit`; for a printable character, the `'"'`, `'-' | '0'..='9'` and
identifier arms are all `todo!()` (modelled as a panic), whitespace
continues the loop, and any other key event yields `Chord`.  The alias
table is held by the tokenizer but never consulted by `next`. -/
def tokenizerNext (aliases : CommandAliases) : List KeyEvent → NextRes
  | [] => .done
  | ke :: rest =>
    match ke.code with
    | .enter => .tok .submit rest
    | .char c =>
      if c = '"' then .panicked ("not yet implemented")
      else if c = '-' ∨ ('0' ≤ c ∧ c ≤ '9') then .panicked ("not yet implemented")
      else if c.isWhitespace then tokenizerNext aliases rest
      else .panicked ("not yet implemented")
    | _ => .tok (.chord ke) rest

/-- `InputHandler::append`: Escape clears the motion buffer, Backspace
pops the most recent event, anything else is pushed verbatim. -/
def InputHandler.append (motion : List KeyEvent) (ev : KeyEvent) : List KeyEvent :=
  match ev.code with
  | .esc => []
  | .backspace => motion.dropLast
  | _ => motion ++ [ev]

/-- `impl Display for InputHandler`: each `Char` event writes its glyph,
preceded by `^` when CONTROL is held; other events write nothing. -/
def InputHandler.toDisplayString (motion : List KeyEvent) : String :=
  motion.foldl
    (fun s ke =>
      match ke.code with
      | .char c => (if ke.ctrl then s.push '^' else s).push c
      | _ => s)
    ("")

/-- The state of a `Mutex` acquisition: the lock is either healthy and
yields the protected value, or poisoned by a previous panicking holder. -/
inductive LockResult (α : Type) where
  | ok (a : α)
  | poisoned
deriving DecidableEq

/-- How a Rust function call ends: a normal return, or a panic carrying
the panic message. -/
inductive RustOutcome (α : Type) where
  | ret (a : α)
  | panicked (msg : String)
deriving DecidableEq

/-- `Result::expect` on a lock acquisition: return the value, or panic
with the given message if the lock was poisoned. -/
def lockExpect {α : Type} (msg : String) : LockResult α → RustOutcome α
  | .ok a => .ret a
  | .poisoned => .panicked msg

/-- `ScrollDirection` from the input API. -/
inductive ScrollDirection where
  | forward
  | backward
deriving DecidableEq

/-- `impl input::Api for App`, `fn scroll` (`src/main.rs`): lock the
current log buffer with `expect("Logbuffer mutex was poisoned!")`, then
`inc_scroll` / `dec_scroll`.  The function returns `()` in Rust: it has
no error channel, so a poisoned lock can only panic. -/
def App.scroll (buf : LockResult LogBuffer) (direction : ScrollDirection) :
    RustOutcome LogBuffer :=
  match lockExpect ("Logbuffer mutex was poisoned!") buf with
  | .panicked m => .panicked m
  | .ret b =>
    .ret (match direction with
          | .forward => b.inc_scroll
          | .backward => b.dec_scroll)

/-- `impl ContextualWidget for Terminal`, `fn render_ref`
(`src/tui/widget/terminal.rs`): if the context carries a text buffer,
lock it with `expect("Screenbuffer mutex was poisoned!")` and render it;
drawing itself is external.  The function returns `()` in Rust: a
poisoned lock can only panic. -/
def Terminal.render_ref (text_buffer : Option (LockResult LogBuffer)) :
    RustOutcome Unit :=
  match text_buffer with
  | none => .ret ()
  | some l =>
    match lockExpect ("Screenbuffer mutex was poisoned!") l with
    | .panicked m => .panicked m
    | .ret _ => .ret ()

/-- A successful run of the eviction loop always exits with strictly fewer
stored lines than the limit (the loop exits only when `len < limit`). -/
theorem evictLoop_length_lt {limit : Nat} :
    ∀ (fuel : Nat) (l l' : List LogEntry), evictLoop limit fuel l = some l' → l'.length < limit := by
  intro fuel
  induction fuel with
  | zero => intro l l' h; simp [evictLoop] at h
  | succ n ih =>
    intro l l' h
    rw [evictLoop] at h
    by_cases hc : limit ≤ l.length
    · rw [if_pos hc] at h
      exact ih _ _ h
    · rw [if_neg hc] at h
      cases h
      omega

/-- With limit `0` the eviction loop never exits, whatever the fuel. -/
theorem evictLoop_zero_none : ∀ (fuel : Nat) (l : List LogEntry), evictLoop 0 fuel l = none := by
  intro fuel
  induction fuel with
  | zero => intro l; rfl
  | succ n ih => intro l; rw [evictLoop, if_pos (Nat.zero_le _)]; exact ih l.tail

/-- With limit at least `1`, fuel `len + 1` suffices for the eviction loop. -/
theorem evictLoop_isSome {limit : Nat} (h1 : 1 ≤ limit) :
    ∀ (fuel : Nat) (l : List LogEntry), l.length + 1 ≤ fuel → (evictLoop limit fuel l).isSome := by
  intro fuel
  induction fuel with
  | zero => intro l h2; omega
  | succ n ih =>
    intro l h2
    rw [evictLoop]
    by_cases hc : limit ≤ l.length
    · rw [if_pos hc]
      have hl : l.length ≠ 0 := by omega
      have : l.tail.length + 1 ≤ n := by
        rw [List.length_tail]
        omega
      exact ih l.tail this
    · rw [if_neg hc]; rfl

/-- A successful `push_line` preserves the capacity and the last observed
height, keeps the count strictly below the capacity, and leaves the scroll
offset as the auto-follow step computed it. -/
theorem push_line_some_spec {fuel : Nat} {st : LogBuffer} {ts : Nat} {tag content : Line}
    {st' : LogBuffer} (h : st.push_line fuel ts tag content = some st') :
    st'.buf_limit = st.buf_limit ∧ st'.last_frame_height = st.last_frame_height ∧
      st'.count < st.buf_limit ∧
      st'.scroll = (if st.scroll ≠ 0 then
        LogBuffer.clamp_scroll { st with raw := st.raw ++ [⟨ts, tag, content⟩] }
          (satAdd16 st.scroll 1)
        else st.scroll) := by
  by_cases h0 : st.scroll = 0
  · rw [LogBuffer.push_line] at h
    rw [if_neg (by simp [h0])] at h
    rcases Option.map_eq_some'.mp h with ⟨raw2, hev, hst⟩
    subst hst
    refine ⟨rfl, rfl, ?_, ?_⟩
    · exact evictLoop_length_lt _ _ _ hev
    · rw [if_neg (by simp [h0])]
  · rw [LogBuffer.push_line] at h
    rw [if_pos (by simp [h0])] at h
    rcases Option.map_eq_some'.mp h with ⟨raw2, hev, hst⟩
    subst hst
    refine ⟨rfl, rfl, ?_, ?_⟩
    · exact evictLoop_length_lt _ _ _ hev
    · rw [if_pos h0]
      rfl

/-- C1: for every initial `LogBuffer` state and every finite sequence of
`push_line` calls, after each individual (terminating) `push_line` the
number of stored lines is at most the configured capacity `buf_limit`. -/
theorem pushSeq_count_le_capacity (fuel : Nat) (st : LogBuffer)
    (entries : List (Nat × Line × Line)) (states : List LogBuffer)
    (h : LogBuffer.pushSeq fuel st entries = some states) :
    ∀ s ∈ states, s.count ≤ st.buf_limit := by
  induction entries generalizing st states with
  | nil =>
    rw [LogBuffer.pushSeq] at h
    cases h
    intro s hs
    cases hs
  | cons e es ih =>
    rw [LogBuffer.pushSeq] at h
    cases hp : st.push_line fuel e.1 e.2.1 e.2.2 with
    | none => rw [hp] at h; cases h
    | some st1 =>
      rw [hp] at h
      rcases Option.map_eq_some'.mp h with ⟨states1, hrec, hst⟩
      subst hst
      intro s hs
      rcases List.mem_cons.mp hs with hs1 | hs2
      · subst hs1
        exact Nat.le_of_lt (push_line_some_spec hp).2.2.1
      · have hlim := (push_line_some_spec hp).1
        have := ih st1 states1 hrec s hs2
        omega

/-- C1 witness: pushing one entry onto an empty buffer of capacity 2
leaves at most 2 stored lines. -/
theorem pushSeq_count_le_capacity_witness :
    LogBuffer.count ⟨2, 0, 0, [⟨0, [], []⟩]⟩ ≤ 2 :=
  pushSeq_count_le_capacity 5 ⟨2, 0, 0, []⟩ [(0, [], [])] [⟨2, 0, 0, [⟨0, [], []⟩]⟩]
    (by rfl) _ (by simp)

/-- C10: `push_line` terminates only when the capacity is at least 1.
With capacity 0 the eviction loop's guard `count >= buf_limit` holds
forever, so no amount of fuel makes `push_line` return; with capacity at
least 1, fuel `count + 2` always suffices. -/
theorem push_line_capacity_zero_diverges (st : LogBuffer) (ts : Nat) (tag content : Line) :
    (st.buf_limit = 0 → ∀ fuel, st.push_line fuel ts tag content = none) ∧
    (1 ≤ st.buf_limit → ∀ fuel, st.count + 2 ≤ fuel →
      (st.push_line fuel ts tag content).isSome) := by
  constructor
  · intro h0 fuel
    rw [LogBuffer.push_line, h0]
    by_cases hs : st.scroll ≠ 0
    · rw [if_pos hs, evictLoop_zero_none]; rfl
    · rw [if_neg hs, evictLoop_zero_none]; rfl
  · intro h1 fuel hfuel
    rw [LogBuffer.push_line]
    simp only [LogBuffer.count] at hfuel
    by_cases hs : st.scroll = 0
    · rw [if_neg (by simp [hs])]
      have hx := evictLoop_isSome h1 fuel (st.raw ++ [⟨ts, tag, content⟩])
        (by simp; omega)
      obtain ⟨raw2, hraw⟩ := Option.isSome_iff_exists.mp hx
      rw [show ({ st with raw := st.raw ++ [⟨ts, tag, content⟩] } : LogBuffer).raw
            = st.raw ++ [⟨ts, tag, content⟩] from rfl, hraw]
      rfl
    · rw [if_pos (by simp [hs])]
      have hx := evictLoop_isSome h1 fuel (st.raw ++ [⟨ts, tag, content⟩])
        (by simp; omega)
      obtain ⟨raw2, hraw⟩ := Option.isSome_iff_exists.mp hx
      rw [show (({ st with raw := st.raw ++ [⟨ts, tag, content⟩] } : LogBuffer).inc_scroll).raw
            = st.raw ++ [⟨ts, tag, content⟩] from rfl, hraw]
      rfl

/-- C10 witness: on a capacity-0 buffer, a concrete `push_line` call
returns for no fuel, here fuel 7. -/
theorem push_line_capacity_zero_diverges_witness :
    LogBuffer.push_line 7 ⟨0, 3, 1, []⟩ 0 [] [] = none :=
  (push_line_capacity_zero_diverges ⟨0, 3, 1, []⟩ 0 [] []).1 rfl 7

/-- C2 counterexample: a buffer with `scroll = 5`, no stored lines and a
last observed viewport height of 10.  `push_line` increments the offset
through `clamp_scroll`, whose bound `min(count,65535) + 2 − height`
saturates to 0 here, so the offset becomes 0, not `5 + 1`. -/
theorem push_line_scroll_clamped_cex :
    (LogBuffer.push_line 2 ⟨10, 5, 10, []⟩ 0 [] []).map LogBuffer.scroll = some 0 ∧
      (0 : Nat) ≠ 5 + 1 := by
  exact ⟨rfl, by decide⟩

/-- `clamp_scroll` is the identity on values within its bound. -/
theorem clamp_scroll_eq_self (st2 : LogBuffer) (v : Nat)
    (h1 : v ≤ satAdd16 (u16ofUsize st2.count) 2 - st2.last_frame_height) :
    st2.clamp_scroll v = v :=
  min_eq_left h1

/-- C2 (amended): after a terminating `push_line`, a zero scroll offset
stays zero; a positive offset `s` becomes exactly `s + 1` provided `s + 1`
does not exceed `u16::MAX` or the clamp bound
`min(count + 1, 65535) + 2 − last_frame_height` computed against the
post-insertion count (in general it becomes the clamp of `s + 1`). -/
theorem push_line_scroll_amended (fuel : Nat) (st : LogBuffer) (ts : Nat)
    (tag content : Line) (st' : LogBuffer)
    (h : st.push_line fuel ts tag content = some st') :
    (st.scroll = 0 → st'.scroll = 0) ∧
    (0 < st.scroll → st.scroll + 1 ≤ U16_MAX →
      st.scroll + 1 ≤ satAdd16 (u16ofUsize (st.count + 1)) 2 - st.last_frame_height →
      st'.scroll = st.scroll + 1) := by
  have hspec := (push_line_some_spec h).2.2.2
  constructor
  · intro h0
    rw [hspec, if_neg (by simp [h0]), h0]
  · intro hpos hmax hbound
    have hadd : satAdd16 st.scroll 1 = st.scroll + 1 := by
      simp only [satAdd16, U16_MAX] at hmax ⊢
      omega
    rw [hspec, if_pos (by omega), hadd]
    apply clamp_scroll_eq_self
    simpa [LogBuffer.count] using hbound

/-- C2 witness: with one free slot of clamp headroom, a positive offset is
incremented exactly by one on push. -/
theorem push_line_scroll_amended_witness :
    LogBuffer.scroll ⟨10, 2, 0, [⟨0, [], []⟩]⟩ = 1 + 1 :=
  (push_line_scroll_amended 3 ⟨10, 1, 0, []⟩ 0 [] [] ⟨10, 2, 0, [⟨0, [], []⟩]⟩
    (by rfl)).2 (by decide) (by decide) (by decide)

/-- C3 counterexample: buffer with 5 stored lines whose last observed
height is still the initial 0.  `set_scroll(65535)` clamps against height
0 and yields 7; the following `render(80, 5)` records height 5 but does
not re-clamp, so the offset 7 exceeds `max(0, count + 2 − 5) = 2`. -/
theorem set_scroll_render_exceeds_cex :
    (((⟨10, 0, 0, List.replicate 5 ⟨0, [], []⟩⟩ : LogBuffer).set_scroll 65535).render_ref
        0 80 5).buffer.scroll = 7 ∧
      ((((⟨10, 0, 0, List.replicate 5 ⟨0, [], []⟩⟩ : LogBuffer).set_scroll 65535).render_ref
        0 80 5).buffer.count + 2 - 5 : Nat) < 7 := by
  constructor
  · rfl
  · decide

/-- C3 (amended): after `set_scroll(v)` followed by `render(w, h)` the
scroll offset never exceeds `max(0, min(count, 65535) + 2 − H)` where `H`
is the viewport height recorded at the *previous* render (0 initially) —
clamping uses the last observed height, and `render` records `h` only for
subsequent clamps without re-clamping the current offset.  The claim's
bound with the new height `h` holds only when `H = h` already. -/
theorem set_scroll_render_clamped (st : LogBuffer) (v lcol w h : Nat) :
    ((st.set_scroll v).render_ref lcol w h).buffer.scroll ≤
      satAdd16 (u16ofUsize st.count) 2 - st.last_frame_height := by
  show min v (satAdd16 (u16ofUsize st.count) 2 - st.last_frame_height) ≤ _
  exact min_le_right _ _

/-- All graphemes held by a wrap state, in order: completed lines, then
the current line, then the pending segment. -/
def wrapStateGraphemes (st : WrapState) : List String :=
  (st.t.map lineGraphemes).flatten ++ lineGraphemes st.acc ++ st.buf

/-- `lineGraphemes` distributes over span concatenation. -/
theorem lineGraphemes_append (l1 l2 : Line) :
    lineGraphemes (l1 ++ l2) = lineGraphemes l1 ++ lineGraphemes l2 := by
  simp [lineGraphemes]

/-- One wrapping step adds exactly the processed grapheme to the state. -/
theorem wrapGrapheme_graphemes (gw : String → Nat) (max_width style : Nat)
    (st : WrapState) (g : String) :
    wrapStateGraphemes (wrapGrapheme gw max_width style st g)
      = wrapStateGraphemes st ++ [g] := by
  rw [wrapGrapheme]
  by_cases hc : max_width < lineWidth gw st.acc + bufWidth gw st.buf + gw g
  · rw [if_pos hc]
    simp [wrapStateGraphemes, lineGraphemes_append, lineGraphemes]
  · rw [if_neg hc]
    simp [wrapStateGraphemes]

/-- Folding the grapheme step over a list appends exactly that list. -/
theorem foldl_wrapGrapheme_graphemes (gw : String → Nat) (max_width style : Nat) :
    ∀ (gs : List String) (st : WrapState),
      wrapStateGraphemes (gs.foldl (wrapGrapheme gw max_width style) st)
        = wrapStateGraphemes st ++ gs := by
  intro gs
  induction gs with
  | nil => intro st; simp
  | cons g gs ih =>
    intro st
    rw [List.foldl_cons, ih, wrapGrapheme_graphemes]
    simp

/-- Processing one span from a state with an empty pending segment leaves
the pending segment empty and appends exactly the span's graphemes. -/
theorem wrapSpan_graphemes (gw : String → Nat) (max_width : Nat)
    (st : WrapState) (sp : Span) (hbuf : st.buf = []) :
    (wrapSpan gw max_width st sp).buf = [] ∧
      wrapStateGraphemes (wrapSpan gw max_width st sp)
        = wrapStateGraphemes st ++ sp.content := by
  rw [wrapSpan]
  have hst : ({ st with buf := [] } : WrapState) = st := by
    cases st
    simp_all
  rw [hst]
  have hfold := foldl_wrapGrapheme_graphemes gw max_width sp.style sp.content st
  by_cases hb : (sp.content.foldl (wrapGrapheme gw max_width sp.style) st).buf = []
  · rw [if_pos hb]
    exact ⟨hb, hfold⟩
  · rw [if_neg hb]
    constructor
    · rfl
    · rw [← hfold]
      simp [wrapStateGraphemes, lineGraphemes_append, lineGraphemes]

/-- Folding the span step over a list of spans, starting from an empty
pending segment, appends exactly the spans' graphemes. -/
theorem foldl_wrapSpan_graphemes (gw : String → Nat) (max_width : Nat) :
    ∀ (sps : List Span) (st : WrapState), st.buf = [] →
      (sps.foldl (wrapSpan gw max_width) st).buf = [] ∧
        wrapStateGraphemes (sps.foldl (wrapSpan gw max_width) st)
          = wrapStateGraphemes st ++ lineGraphemes sps := by
  intro sps
  induction sps with
  | nil => intro st h; simpa [lineGraphemes] using h
  | cons sp sps ih =>
    intro st h
    have hsp := wrapSpan_graphemes gw max_width st sp h
    have hrec := ih (wrapSpan gw max_width st sp) hsp.1
    refine ⟨hrec.1, ?_⟩
    rw [List.foldl_cons, hrec.2, hsp.2]
    simp [lineGraphemes]

/-- C4: the wrapped sub-lines produced by the body-wrapping loop of
`LogBuffer::rows` carry exactly the grapheme-cluster sequence of the
input line: concatenating all sub-lines' graphemes (hence their text)
gives the input's graphemes in order, and since every output element is
a whole input cluster, no grapheme cluster is split across sub-lines.
This holds for every width function and every `max_width`. -/
theorem wrapContent_graphemes (gw : String → Nat) (max_width : Nat) (content : Line) :
    ((wrapContent gw max_width content).map lineGraphemes).flatten
      = lineGraphemes content := by
  rw [wrapContent]
  have h := foldl_wrapSpan_graphemes gw max_width content ⟨[], [], []⟩ rfl
  have hfin : ((((content.foldl (wrapSpan gw max_width) ⟨[], [], []⟩).t
        ++ [(content.foldl (wrapSpan gw max_width) ⟨[], [], []⟩).acc]).map lineGraphemes).flatten)
      = wrapStateGraphemes (content.foldl (wrapSpan gw max_width) ⟨[], [], []⟩) := by
    rw [wrapStateGraphemes, h.1]
    simp
  rw [hfin, h.2]
  simp [wrapStateGraphemes, lineGraphemes]

/-- C5 counterexample: at `max_width = 0`, `checked_div` yields `None`,
`unwrap_or(1)` yields 1, and the final `saturating_add(1)` makes the
reported height 2 — not 1 as claimed. -/
theorem line_height_zero_width_cex :
    LogBuffer.line_height (fun g => g.length) [] 0 = 2 ∧ (2 : Nat) ≠ 1 := by
  constructor
  · rfl
  · decide

/-- C5 (amended): for `max_width > 0` the reported row height is
`visual_width / max_width + 1` (saturating at `usize::MAX`); for
`max_width == 0` the degenerate case does not crash but yields height 2
(`unwrap_or(1)` followed by `saturating_add(1)`), not 1. -/
theorem line_height_amended (gw : String → Nat) (line : Line) (max_width : Nat) :
    (0 < max_width →
      LogBuffer.line_height gw line max_width
        = min (lineWidth gw line / max_width + 1) USIZE_MAX) ∧
    (max_width = 0 → LogBuffer.line_height gw line max_width = 2) := by
  constructor
  · intro hpos
    rw [LogBuffer.line_height, checkedDiv, if_neg (by omega)]
    rfl
  · intro h0
    rw [LogBuffer.line_height, checkedDiv, if_pos h0]
    rw [show (Option.getD (none : Option Nat) 1) = 1 from rfl]
    rw [USIZE_MAX]
    omega

/-- C5 witness: a concrete line of four width-1 graphemes at width 3 has
reported height `4 / 3 + 1 = 2`. -/
theorem line_height_amended_witness :
    LogBuffer.line_height (fun _ => 1) [⟨0, ["a", "b", "c", "d"]⟩] 3
      = min (4 / 3 + 1) USIZE_MAX :=
  (line_height_amended (fun _ => 1) [⟨0, ["a", "b", "c", "d"]⟩] 3).1 (by decide)

/-- A successful `next` call consumes at least one key event. -/
theorem tokenizerNext_tok_lt (aliases : CommandAliases) :
    ∀ (input : List KeyEvent) (t : MotionToken) (rest : List KeyEvent),
      tokenizerNext aliases input = .tok t rest → rest.length < input.length := by
  intro input
  induction input with
  | nil => intro t rest h; cases h
  | cons ke tl ih =>
    intro t rest h
    rw [tokenizerNext] at h
    rcases ke with ⟨code, ctrl⟩
    cases code with
    | enter => cases h; simp
    | esc => cases h; simp
    | backspace => cases h; simp
    | other n => cases h; simp
    | char c =>
      simp only at h
      by_cases h1 : c = '"'
      · rw [if_pos h1] at h; cases h
      · rw [if_neg h1] at h
        by_cases h2 : c = '-' ∨ ('0' ≤ c ∧ c ≤ '9')
        · rw [if_pos h2] at h; cases h
        · rw [if_neg h2] at h
          by_cases h3 : c.isWhitespace
          · rw [if_pos h3] at h
            have := ih t rest h
            simp
            omega
          · rw [if_neg h3] at h; cases h

/-- Drain the tokenizer: repeated `next` calls until the input is
exhausted (`.ok` with the token list) or a `todo!()` arm panics
(`.error` with the panic message). -/
def tokenizeAll (aliases : CommandAliases) (input : List KeyEvent) :
    Except String (List MotionToken) :=
  match hn : tokenizerNext aliases input with
  | .done => .ok []
  | .panicked m => .error m
  | .tok t rest => (tokenizeAll aliases rest).map (t :: ·)
termination_by input.length
decreasing_by exact tokenizerNext_tok_lt aliases input t rest hn

/-- C6 (code bug): with the default aliases, tokenizing
`[',', 'q', Enter]` does not produce
`[ClientCommandMarker, Identifier("q"), Submit]`: the tokenizer's
printable-character arms are `todo!()` and there is no leader-trigger
lookup at all, so the very first `next` call on `','` panics. -/
theorem tokenize_leader_q_enter_panics :
    tokenizeAll [] [⟨.char ',', false⟩, ⟨.char 'q', false⟩, ⟨.enter, false⟩]
      = .error ("not yet implemented") := by
  have hn : tokenizerNext []
      [⟨.char ',', false⟩, ⟨.char 'q', false⟩, ⟨.enter, false⟩]
      = .panicked ("not yet implemented") := by rfl
  rw [tokenizeAll, hn]

/-- C7: `CommandAliases::get` resolves with a case-folded key: the user
override for the lowercased name wins; absent one, the built-ins
`"leader" → ","` and `"commander" → "/"` apply; otherwise the result is
`none`.  Any two names with the same lowercase folding resolve alike, so
`get` is insensitive to the case of its argument. -/
theorem commandAliases_get_spec (tbl : CommandAliases) (name : String) :
    (∀ v, List.lookup (rustToLower name) tbl = some v →
      CommandAliases.get tbl name = some v) ∧
    (List.lookup (rustToLower name) tbl = none → rustToLower name = ("leader" : String) →
      CommandAliases.get tbl name = some (",")) ∧
    (List.lookup (rustToLower name) tbl = none → rustToLower name = ("commander" : String) →
      CommandAliases.get tbl name = some ("/")) ∧
    (List.lookup (rustToLower name) tbl = none → rustToLower name ≠ ("leader" : String) →
      rustToLower name ≠ ("commander" : String) → CommandAliases.get tbl name = none) ∧
    (∀ other : String, rustToLower other = rustToLower name →
      CommandAliases.get tbl other = CommandAliases.get tbl name) := by
  refine ⟨?_, ?_, ?_, ?_, ?_⟩
  · intro v hv
    rw [CommandAliases.get]
    simp only [hv, Option.or]
  · intro hnone hleader
    rw [CommandAliases.get, hleader]
    rw [hleader] at hnone
    rw [hnone]
    rfl
  · intro hnone hcmd
    rw [CommandAliases.get, hcmd]
    rw [hcmd] at hnone
    rw [hnone]
    rfl
  · intro hnone hl hc
    rw [CommandAliases.get]
    simp only [hnone, Option.or]
    rw [if_neg hl, if_neg hc]
  · intro other hfold
    rw [CommandAliases.get, CommandAliases.get, hfold]

/-- C7 witness: with no override, a mixed-case query for the leader
trigger resolves to the built-in `","`. -/
theorem commandAliases_get_witness :
    CommandAliases.get [] ("LeAdEr") = some (",") :=
  (commandAliases_get_spec [] ("LeAdEr")).2.1 rfl (by decide)

/-- C8: `append` clears the motion buffer on Escape, drops exactly the
most recent event on Backspace (a no-op on an empty buffer), and appends
any other event verbatim; consequently `a`, `b`, Backspace, `c` from the
empty buffer displays as `"ac"`. -/
theorem inputHandler_append_spec (motion : List KeyEvent) (ev : KeyEvent) :
    (ev.code = .esc → InputHandler.append motion ev = []) ∧
    (ev.code = .backspace → InputHandler.append motion ev = motion.dropLast) ∧
    (ev.code = .backspace → motion = [] → InputHandler.append motion ev = []) ∧
    (ev.code ≠ .esc → ev.code ≠ .backspace → InputHandler.append motion ev = motion ++ [ev]) ∧
    InputHandler.toDisplayString
      (InputHandler.append
        (InputHandler.append
          (InputHandler.append (InputHandler.append [] ⟨.char 'a', false⟩) ⟨.char 'b', false⟩)
          ⟨.backspace, false⟩)
        ⟨.char 'c', false⟩) = ("ac") := by
  refine ⟨?_, ?_, ?_, ?_, by rfl⟩
  · intro h
    rw [InputHandler.append, h]
  · intro h
    rw [InputHandler.append, h]
  · intro h hm
    rw [InputHandler.append, h, hm]
    rfl
  · intro h1 h2
    rw [InputHandler.append]
    rcases ev with ⟨code, ctrl⟩
    cases code with
    | esc => simp at h1
    | backspace => simp at h2
    | enter => rfl
    | char c => rfl
    | other n => rfl

/-- C8 witness: Escape clears a nonempty buffer; Backspace pops the most
recent event. -/
theorem inputHandler_append_witness :
    InputHandler.append [⟨KeyCode.char 'a', false⟩] ⟨KeyCode.esc, false⟩ = [] ∧
      InputHandler.append [⟨KeyCode.char 'a', false⟩, ⟨KeyCode.char 'b', false⟩]
        ⟨KeyCode.backspace, false⟩ = [⟨KeyCode.char 'a', false⟩] :=
  ⟨(inputHandler_append_spec [⟨KeyCode.char 'a', false⟩] ⟨KeyCode.esc, false⟩).1 rfl,
    (inputHandler_append_spec [⟨KeyCode.char 'a', false⟩, ⟨KeyCode.char 'b', false⟩]
      ⟨KeyCode.backspace, false⟩).2.1 rfl⟩

/-- C9 counterexample: on a poisoned lock the scroll and render paths do
not return an error value — they panic (the `expect` calls), so the
claimed "explicit error value, never aborting" behaviour fails. -/
theorem lock_poisoned_abort_cex :
    App.scroll LockResult.poisoned ScrollDirection.forward
        = RustOutcome.panicked ("Logbuffer mutex was poisoned!") ∧
      Terminal.render_ref (some LockResult.poisoned)
        = RustOutcome.panicked ("Screenbuffer mutex was poisoned!") :=
  ⟨rfl, rfl⟩

/-- C9 (amended): a poisoned lock is never silently ignored, but it is
surfaced by aborting: every core operation acquiring the lock (render or
scroll, in either direction) panics with its explicit `expect` message
rather than returning an error value — the functions return `()` in Rust
and have no error channel. -/
theorem lock_poisoned_panics (direction : ScrollDirection) :
    App.scroll LockResult.poisoned direction
        = RustOutcome.panicked ("Logbuffer mutex was poisoned!") ∧
      Terminal.render_ref (some LockResult.poisoned)
        = RustOutcome.panicked ("Screenbuffer mutex was poisoned!") := by
  cases direction with
  | forward => exact ⟨rfl, rfl⟩
  | backward => exact ⟨rfl, rfl⟩
